import Mathlib

/-!
Shallow embedding of the MadAssistantDuet repository.

The repository has two independent parts that the claims talk about:

* `agent/common.py`: the custom action class `ResetCharacterPosition`, whose
  `run` method parses a parameter object and then chains five UI steps
  (press ESC; then four recognition-and-click steps with a bounded retry
  loop each).  The host framework's side (key presses, screenshots,
  recognition, clicks) is modelled by an explicit environment `Env` that
  tells, for every step and every attempt, what the framework replies and
  where it raises; each modelled function returns the list of externally
  visible events it performed together with an `Outcome` (a returned
  boolean, or a propagated Python exception).

* `install.py`: the version-string computation on line 20
  (`version = len(sys.argv) > 1 and sys.argv[1] or "v0.0.1"`) and the
  manifest rewrite in `install_resource` (load `interface.json`, assign
  `interface["version"] = version`, dump it back).  The manifest is
  modelled as an ordered association list of JSON values, matching a
  Python dict's insertion-order semantics.
-/

/-- Bounding box of a recognition result, as read from `reco_result.box`
(fields `x`, `y`, `w`, `h`). -/
structure Box where
  x : Int
  y : Int
  w : Int
  h : Int
deriving DecidableEq

/-- Recognition result returned by `context.run_recognition`: it may or may
not carry a bounding box (`reco_result.box` can be falsy). -/
structure RecoResult where
  box : Option Box
deriving DecidableEq

/-- The failure test every retrying step applies to a recognition result:
`if not reco_result or not reco_result.box or reco_result.box.w == 0`. -/
def recoMiss : Option RecoResult → Bool
  | none => true
  | some r =>
    match r.box with
    | none => true
    | some b => b.w == 0

/-- The click point computed from a hit:
`click_x = box.x + box.w // 2`, `click_y = box.y + box.h // 2`
(Python `//` is floor division, hence `Int.fdiv`).  The catch-all line is
never reached on inputs that pass the `recoMiss` test. -/
def clickCenter : Option RecoResult → Int × Int
  | some ⟨some b⟩ => (b.x + Int.fdiv b.w 2, b.y + Int.fdiv b.h 2)
  | _ => (0, 0)

/-- What the host framework does during one iteration of a step's retry
loop. -/
inductive AttemptEv where
  /-- An exception is raised inside the `try` block before
  `run_recognition` returns (screenshot refresh or recognition call). -/
  | exn : AttemptEv
  /-- The recognition call returns `r`.  When `r` passes the hit test a
  click is posted; `postExn` then tells whether one of the calls after the
  click is posted (`click_job.wait()`, the sleep, the screenshot refresh)
  raises. -/
  | reco (r : Option RecoResult) (postExn : Bool) : AttemptEv
deriving DecidableEq

/-- One run's environment: whether step 1's `post_click_key(27)` raises,
and the framework's behaviour for attempt `i` (1-based) of step `k`. -/
structure Env where
  step1Exn : Bool
  attempts : Nat → Nat → AttemptEv

/-- Externally visible events of one invocation: the ESC key press, a
recognition attempt (tagged with step and 1-based attempt number), a posted
click at a point, and a sleep in milliseconds. -/
inductive Event where
  | pressEsc : Event
  | recognize (stepNo attempt : Nat) : Event
  | click (x y : Int) : Event
  | sleepMs (ms : Int) : Event
deriving DecidableEq

/-- Result of a modelled Python call: a returned value, or an exception
propagating out of it. -/
inductive Outcome where
  | ok (b : Bool) : Outcome
  | raised : Outcome
deriving DecidableEq

/-- The caller-supplied parameter bag after JSON decoding: the four keys of
the action's parameter object, each possibly absent. -/
structure ParamBag where
  template_path : Option String
  wait_delay : Option Int
  retry_times : Option Int
  retry_interval : Option Int
deriving DecidableEq

/-- The `argv.custom_action_param` value: a JSON string (carrying its parse
result, `none` when `json.loads` raises), a mapping, or anything else. -/
inductive ActionParam where
  | jsonStr (parsed : Option ParamBag) : ActionParam
  | mapping (bag : ParamBag) : ActionParam
  | other : ActionParam

/-- Parameter parsing at the top of `run` (lines 48-53): a string is
decoded with `json.loads` (an invalid one raises, modelled as `none`), a
dict is taken as is, and anything else yields the empty bag `params = {}`. -/
def parseParams : ActionParam → Option ParamBag
  | ActionParam.jsonStr (some bag) => some bag
  | ActionParam.jsonStr none => none
  | ActionParam.mapping bag => some bag
  | ActionParam.other => some ⟨none, none, none, none⟩

/-- The four parameter values actually used by the action. -/
structure Params where
  template_path : String
  wait_delay : Int
  retry_times : Int
  retry_interval : Int
deriving DecidableEq

/-- Defaulting of the four optional keys (lines 56-59):
`params.get("template_path", "common/其他.png")`,
`params.get("wait_delay", 500)`, `params.get("retry_times", 10)`,
`params.get("retry_interval", 500)`. -/
def resolveParams (bag : ParamBag) : Params where
  template_path := bag.template_path.getD "common/其他.png"
  wait_delay := bag.wait_delay.getD 500
  retry_times := bag.retry_times.getD 10
  retry_interval := bag.retry_interval.getD 500

namespace ResetCharacterPosition

/-- The `try` block of one iteration of a retrying step, up to the point
where the iteration either succeeds (`return True`), fails this attempt
(recognition missed), or raises.  `tail` is the extra trailing work a step
does after its success sleep (step 5 sleeps another 100 ms). -/
def attemptBody (stepNo attempt : Nat) (ev : AttemptEv) (wait_delay : Int)
    (tail : List Event) : List Event × Outcome :=
  match ev with
  | AttemptEv.exn => ([], Outcome.raised)
  | AttemptEv.reco r postExn =>
    if recoMiss r then
      ([Event.recognize stepNo attempt], Outcome.ok false)
    else
      let c := clickCenter r
      if postExn then
        ([Event.recognize stepNo attempt, Event.click c.1 c.2], Outcome.raised)
      else
        ([Event.recognize stepNo attempt, Event.click c.1 c.2,
          Event.sleepMs wait_delay] ++ tail, Outcome.ok true)

/-- The retry loop `for attempt in range(1, retry_times + 1)` shared by
steps 2-5, called with `attempt = 1` and `remaining = retry_times.toNat`
(so `attempt + remaining` stays equal to `retry_times` and the source's
`attempt < retry_times` test is `remaining ≠ 0`).  A successful iteration
returns `True`; a missed recognition or a caught exception sleeps
`retry_interval` and retries when attempts remain, else returns `False`;
falling out of the loop (an empty range) returns `False`. -/
def retryLoop (stepNo : Nat) (ev : Nat → AttemptEv) (wait_delay retry_interval : Int)
    (tail : List Event) : Nat → Nat → List Event × Outcome
  | _, 0 => ([], Outcome.ok false)
  | attempt, remaining + 1 =>
    match attemptBody stepNo attempt (ev attempt) wait_delay tail with
    | (tr, Outcome.ok true) => (tr, Outcome.ok true)
    | (tr, Outcome.ok false) =>
      if remaining = 0 then (tr, Outcome.ok false)
      else
        let rest := retryLoop stepNo ev wait_delay retry_interval tail (attempt + 1) remaining
        (tr ++ Event.sleepMs retry_interval :: rest.1, rest.2)
    | (tr, Outcome.raised) =>
      if remaining = 0 then (tr, Outcome.ok false)
      else
        let rest := retryLoop stepNo ev wait_delay retry_interval tail (attempt + 1) remaining
        (tr ++ Event.sleepMs retry_interval :: rest.1, rest.2)

/-- The `try` block of `_step1_press_esc`: post the ESC key press, sleep
`wait_delay` ms, refresh the screenshot, return `True`. -/
def step1Body (e : Env) (wait_delay : Int) : List Event × Outcome :=
  if e.step1Exn then ([], Outcome.raised)
  else ([Event.pressEsc, Event.sleepMs wait_delay], Outcome.ok true)

/-- `_step1_press_esc` (lines 98-119): the body wrapped in
`try/except` returning `False` on an exception.  No recognition and no
retry loop occur in this step. -/
def step1_press_esc (e : Env) (wait_delay : Int) : List Event × Outcome :=
  match step1Body e wait_delay with
  | (tr, Outcome.ok b) => (tr, Outcome.ok b)
  | (tr, Outcome.raised) => (tr, Outcome.ok false)

/-- `_step2_click_settings` (lines 121-175): OCR node `OCR_Settings` with
the shared retry loop. -/
def step2_click_settings (e : Env) (wait_delay retry_times retry_interval : Int) :
    List Event × Outcome :=
  retryLoop 2 (e.attempts 2) wait_delay retry_interval [] 1 retry_times.toNat

/-- `_step3_click_other` (lines 177-236): template node `Template_Other`
with the shared retry loop; `template_path` only selects the pipeline
override passed to the framework, whose reply the environment supplies. -/
def step3_click_other (e : Env) (_template_path : String)
    (wait_delay retry_times retry_interval : Int) : List Event × Outcome :=
  retryLoop 3 (e.attempts 3) wait_delay retry_interval [] 1 retry_times.toNat

/-- `_step4_click_reset_character` (lines 238-291): OCR node
`OCR_ResetCharacter` with the shared retry loop. -/
def step4_click_reset_character (e : Env) (wait_delay retry_times retry_interval : Int) :
    List Event × Outcome :=
  retryLoop 4 (e.attempts 4) wait_delay retry_interval [] 1 retry_times.toNat

/-- `_step5_click_confirm` (lines 293-346): OCR node `OCR_Confirm` with the
shared retry loop; on success it sleeps a further 100 ms (`time.sleep(0.1)`)
after the screenshot refresh. -/
def step5_click_confirm (e : Env) (wait_delay retry_times retry_interval : Int) :
    List Event × Outcome :=
  retryLoop 5 (e.attempts 5) wait_delay retry_interval [Event.sleepMs 100] 1
    retry_times.toNat

/-- Step chaining as written in `run`: `if not self._stepK(...): return
False`.  A step returning `False` ends the chain with `False`; an
exception propagates. -/
def andThen (r : List Event × Outcome) (k : Unit → List Event × Outcome) :
    List Event × Outcome :=
  match r with
  | (tr, Outcome.ok true) =>
    let rest := k ()
    (tr ++ rest.1, rest.2)
  | (tr, Outcome.ok false) => (tr, Outcome.ok false)
  | (tr, Outcome.raised) => (tr, Outcome.raised)

/-- The five-step sequence of `run` (lines 69-92) on already-resolved
parameters, ending in `return True` when every step succeeded. -/
def stepChain (e : Env) (P : Params) : List Event × Outcome :=
  andThen (step1_press_esc e P.wait_delay) fun _ =>
  andThen (step2_click_settings e P.wait_delay P.retry_times P.retry_interval) fun _ =>
  andThen (step3_click_other e P.template_path P.wait_delay P.retry_times P.retry_interval) fun _ =>
  andThen (step4_click_reset_character e P.wait_delay P.retry_times P.retry_interval) fun _ =>
  step5_click_confirm e P.wait_delay P.retry_times P.retry_interval

/-- The `try` block of `run`: parse the parameter object (a `json.loads`
failure raises), resolve defaults, and chain the five steps. -/
def runBody (e : Env) (p : ActionParam) : List Event × Outcome :=
  match parseParams p with
  | none => ([], Outcome.raised)
  | some bag => stepChain e (resolveParams bag)

/-- `ResetCharacterPosition.run` (lines 41-96): the body wrapped in the
top-level `try/except` that logs and returns `False`. -/
def run (e : Env) (p : ActionParam) : List Event × Outcome :=
  match runBody e p with
  | (tr, Outcome.ok b) => (tr, Outcome.ok b)
  | (tr, Outcome.raised) => (tr, Outcome.ok false)

end ResetCharacterPosition

/-!
## Sleep-faithful refinement

`time.sleep(t)` raises `ValueError` when `t` is negative.  The definitions
above treat every sleep as an infallible event; the `...F` family below is
the same translation of lines 98-346 with that single refinement: a sleep
of a negative number of milliseconds raises.  In the retrying steps the
miss-branch retry sleep (lines 145, 207, 262, 315) sits inside the `try`,
so its exception is caught by the step's `except`, but the handler's own
retry sleep (lines 171, 232, 287, 342) is unprotected, so its exception
propagates out of the step method; the success-path `wait_delay` sleep and
step 1's sleep sit inside a `try` whose handler returns `False`.
-/

/-- Control flow at the end of one `try` block of the faithful retry loop:
the iteration returned `b` from the method, fell through to the next
attempt (`continue`), or let an exception escape into the `except`
branch. -/
inductive IterStep where
  | ret (b : Bool) : IterStep
  | next : IterStep
  | exn : IterStep
deriving DecidableEq

namespace ResetCharacterPosition

/-- The `try` block of one iteration of a retrying step (lines 126-166 and
the corresponding blocks of steps 3-5), with the sleeps fallible:
`postExn` tells whether `click_job.wait()` raises after the click is
posted; the miss-branch retry sleep and the success-path `wait_delay`
sleep raise exactly when their duration is negative.  `remaining = 0`
renders the source's `attempt < retry_times` being false, as in
`retryLoop`. -/
def attemptTryF (stepNo attempt : Nat) (ev : AttemptEv)
    (wait_delay retry_interval : Int) (remaining : Nat) (tail : List Event) :
    List Event × IterStep :=
  match ev with
  | AttemptEv.exn => ([], IterStep.exn)
  | AttemptEv.reco r postExn =>
    if recoMiss r then
      if remaining = 0 then
        ([Event.recognize stepNo attempt], IterStep.ret false)
      else if retry_interval < 0 then
        ([Event.recognize stepNo attempt], IterStep.exn)
      else
        ([Event.recognize stepNo attempt, Event.sleepMs retry_interval],
          IterStep.next)
    else
      let c := clickCenter r
      if postExn then
        ([Event.recognize stepNo attempt, Event.click c.1 c.2], IterStep.exn)
      else if wait_delay < 0 then
        ([Event.recognize stepNo attempt, Event.click c.1 c.2], IterStep.exn)
      else
        ([Event.recognize stepNo attempt, Event.click c.1 c.2,
          Event.sleepMs wait_delay] ++ tail, IterStep.ret true)

/-- The retry loop with fallible sleeps.  An escaped exception reaches the
`except` branch: on the last attempt it returns `False`; otherwise the
handler sleeps the retry interval without any protection, so a negative
retry interval makes the step method itself raise (`Outcome.raised`). -/
def retryLoopF (stepNo : Nat) (ev : Nat → AttemptEv)
    (wait_delay retry_interval : Int) (tail : List Event) :
    Nat → Nat → List Event × Outcome
  | _, 0 => ([], Outcome.ok false)
  | attempt, remaining + 1 =>
    match attemptTryF stepNo attempt (ev attempt) wait_delay retry_interval
        remaining tail with
    | (tr, IterStep.ret b) => (tr, Outcome.ok b)
    | (tr, IterStep.next) =>
      let rest := retryLoopF stepNo ev wait_delay retry_interval tail
        (attempt + 1) remaining
      (tr ++ rest.1, rest.2)
    | (tr, IterStep.exn) =>
      if remaining = 0 then (tr, Outcome.ok false)
      else if retry_interval < 0 then (tr, Outcome.raised)
      else
        let rest := retryLoopF stepNo ev wait_delay retry_interval tail
          (attempt + 1) remaining
        (tr ++ Event.sleepMs retry_interval :: rest.1, rest.2)

/-- `_step1_press_esc` with a fallible sleep: a negative `wait_delay` makes
the in-`try` sleep raise, and the step's `except` returns `False`; this
step's handler body cannot raise. -/
def step1_press_escF (e : Env) (wait_delay : Int) : List Event × Outcome :=
  if e.step1Exn then ([], Outcome.ok false)
  else if wait_delay < 0 then ([Event.pressEsc], Outcome.ok false)
  else ([Event.pressEsc, Event.sleepMs wait_delay], Outcome.ok true)

/-- Step 2 with fallible sleeps. -/
def step2_click_settingsF (e : Env) (wait_delay retry_times retry_interval : Int) :
    List Event × Outcome :=
  retryLoopF 2 (e.attempts 2) wait_delay retry_interval [] 1 retry_times.toNat

/-- Step 3 with fallible sleeps. -/
def step3_click_otherF (e : Env) (_template_path : String)
    (wait_delay retry_times retry_interval : Int) : List Event × Outcome :=
  retryLoopF 3 (e.attempts 3) wait_delay retry_interval [] 1 retry_times.toNat

/-- Step 4 with fallible sleeps. -/
def step4_click_reset_characterF (e : Env)
    (wait_delay retry_times retry_interval : Int) : List Event × Outcome :=
  retryLoopF 4 (e.attempts 4) wait_delay retry_interval [] 1 retry_times.toNat

/-- Step 5 with fallible sleeps (its trailing `time.sleep(0.1)` cannot
raise). -/
def step5_click_confirmF (e : Env) (wait_delay retry_times retry_interval : Int) :
    List Event × Outcome :=
  retryLoopF 5 (e.attempts 5) wait_delay retry_interval [Event.sleepMs 100] 1
    retry_times.toNat

/-- The five-step sequence of `run` over the sleep-faithful steps; a step's
escaped exception propagates through the chain. -/
def stepChainF (e : Env) (P : Params) : List Event × Outcome :=
  andThen (step1_press_escF e P.wait_delay) fun _ =>
  andThen (step2_click_settingsF e P.wait_delay P.retry_times P.retry_interval) fun _ =>
  andThen (step3_click_otherF e P.template_path P.wait_delay P.retry_times P.retry_interval) fun _ =>
  andThen (step4_click_reset_characterF e P.wait_delay P.retry_times P.retry_interval) fun _ =>
  step5_click_confirmF e P.wait_delay P.retry_times P.retry_interval

/-- The `try` block of `run` over the sleep-faithful steps. -/
def runBodyF (e : Env) (p : ActionParam) : List Event × Outcome :=
  match parseParams p with
  | none => ([], Outcome.raised)
  | some bag => stepChainF e (resolveParams bag)

/-- `ResetCharacterPosition.run` over the sleep-faithful steps: the
top-level `except Exception` (lines 94-96) absorbs whatever reaches it —
in particular a `ValueError` a step method propagates — and returns
`False`. -/
def runF (e : Env) (p : ActionParam) : List Event × Outcome :=
  match runBodyF e p with
  | (tr, Outcome.ok b) => (tr, Outcome.ok b)
  | (tr, Outcome.raised) => (tr, Outcome.ok false)

end ResetCharacterPosition

/-- The recognition attempts recorded in a trace. -/
def countReco (tr : List Event) : Nat :=
  (tr.filter fun ev =>
    match ev with
    | Event.recognize _ _ => true
    | _ => false).length

/-- The posted clicks recorded in a trace. -/
def clicksOf (tr : List Event) : List (Int × Int) :=
  tr.filterMap fun ev =>
    match ev with
    | Event.click x y => some (x, y)
    | _ => none

/-- An attempt on which the step's hit test fails: the recognition call
returns but the result is missing, has no box, or has a zero-width box. -/
def attemptMissed : AttemptEv → Bool
  | AttemptEv.exn => false
  | AttemptEv.reco r _ => recoMiss r

/-- An attempt that does not recognize the target: the hit test fails, or
an exception pre-empts the recognition. -/
def attemptFails : AttemptEv → Bool
  | AttemptEv.exn => true
  | AttemptEv.reco r _ => recoMiss r

/-- The trace of a retry loop all of whose `n` attempts (numbered from
`attempt`) miss: one recognition per attempt, a `retry_interval` sleep
between consecutive attempts, and none after the last. -/
def missTrace (stepNo : Nat) (retry_interval : Int) : Nat → Nat → List Event
  | _, 0 => []
  | attempt, n + 1 =>
    if n = 0 then [Event.recognize stepNo attempt]
    else Event.recognize stepNo attempt :: Event.sleepMs retry_interval ::
      missTrace stepNo retry_interval (attempt + 1) n

/-! ## The installer (`install.py`) -/

/-- JSON values of the manifest, with objects as insertion-ordered field
lists (as a Python dict round-tripped through `jsonc`). -/
inductive JsonVal where
  | str (s : String) : JsonVal
  | num (n : Int) : JsonVal
  | boolean (b : Bool) : JsonVal
  | null : JsonVal
  | arr (xs : List JsonVal) : JsonVal
  | obj (fields : List (String × JsonVal)) : JsonVal

/-- Line 20 of `install.py`:
`version = len(sys.argv) > 1 and sys.argv[1] or "v0.0.1"`.
When no argument is given the `and` yields `False` and the `or` falls
through to `"v0.0.1"`; when an argument is given the `or` falls through
exactly when `sys.argv[1]` is falsy, i.e. the empty string. -/
def versionOf (argv : List String) : String :=
  match argv with
  | _ :: v :: _ => if v = "" then "v0.0.1" else v
  | _ => "v0.0.1"

/-- Python dict assignment `d[k] = v` on an insertion-ordered field list:
an existing key keeps its position and gets the new value, a new key is
appended at the end. -/
def dictSet (m : List (String × JsonVal)) (k : String) (v : JsonVal) :
    List (String × JsonVal) :=
  if m.any fun kv => kv.1 == k then
    m.map fun kv => if kv.1 == k then (k, v) else kv
  else m ++ [(k, v)]

/-- The manifest transformation of `install_resource` (lines 61-67): the
loaded `interface.json` object with `interface["version"] = version`
assigned, as written back by `jsonc.dump`. -/
def install_resource_manifest (loaded : List (String × JsonVal))
    (argv : List String) : List (String × JsonVal) :=
  dictSet loaded "version" (JsonVal.str (versionOf argv))

/-! ## Helper lemmas -/

namespace ResetCharacterPosition

theorem countReco_append (a b : List Event) :
    countReco (a ++ b) = countReco a + countReco b := by
  simp [countReco, List.filter_append]

theorem clicksOf_append (a b : List Event) :
    clicksOf (a ++ b) = clicksOf a ++ clicksOf b := by
  simp [clicksOf]

/-- A result passing the hit test is a box of nonzero width, and the click
point computed from it is the box center. -/
theorem recoMiss_false_elim (r : Option RecoResult) (h : recoMiss r = false) :
    ∃ b : Box, r = some ⟨some b⟩ ∧ b.w ≠ 0 ∧
      clickCenter r = (b.x + Int.fdiv b.w 2, b.y + Int.fdiv b.h 2) := by
  match r with
  | none => simp [recoMiss] at h
  | some ⟨none⟩ => simp [recoMiss] at h
  | some ⟨some b⟩ =>
    refine ⟨b, rfl, ?_, rfl⟩
    simpa [recoMiss] using h

/-- The retry loop never lets an exception escape: every iteration's `try`
is paired with an `except` that retries or returns `False`. -/
theorem retryLoop_ok (stepNo : Nat) (ev : Nat → AttemptEv) (wd ri : Int)
    (tail : List Event) (attempt n : Nat) :
    ∃ b : Bool, (retryLoop stepNo ev wd ri tail attempt n).2 = Outcome.ok b := by
  induction n generalizing attempt with
  | zero => exact ⟨false, rfl⟩
  | succ n ih =>
    rcases h : attemptBody stepNo attempt (ev attempt) wd tail with ⟨tr, o⟩
    rcases o with b | _
    · rcases b with _ | _
      · rcases eq_or_ne n 0 with hn | hn
        · exact ⟨false, by simp [retryLoop, h, hn]⟩
        · rcases ih (attempt + 1) with ⟨b, hb⟩
          exact ⟨b, by simp [retryLoop, h, hn, hb]⟩
      · exact ⟨true, by simp [retryLoop, h]⟩
    · rcases eq_or_ne n 0 with hn | hn
      · exact ⟨false, by simp [retryLoop, h, hn]⟩
      · rcases ih (attempt + 1) with ⟨b, hb⟩
        exact ⟨b, by simp [retryLoop, h, hn, hb]⟩

theorem countReco_sleep_cons (m : Int) (l : List Event) :
    countReco (Event.sleepMs m :: l) = countReco l := by
  simp [countReco]

/-- Each loop iteration performs at most one recognition attempt, so a loop
of `n` iterations performs at most `n` (the success tail contains none). -/
theorem countReco_retryLoop_le (stepNo : Nat) (ev : Nat → AttemptEv) (wd ri : Int)
    (tail : List Event) (htail : countReco tail = 0) (attempt n : Nat) :
    countReco (retryLoop stepNo ev wd ri tail attempt n).1 ≤ n := by
  induction n generalizing attempt with
  | zero => simp [retryLoop, countReco]
  | succ n ih =>
    have hbody : countReco (attemptBody stepNo attempt (ev attempt) wd tail).1 ≤ 1 := by
      rcases ev attempt with _ | ⟨r, pe⟩
      · simp [attemptBody, countReco]
      · by_cases hm : recoMiss r
        · simp [attemptBody, hm, countReco]
        · rcases pe with _ | _
          · have heq : attemptBody stepNo attempt (AttemptEv.reco r false) wd tail =
                ([Event.recognize stepNo attempt,
                  Event.click (clickCenter r).1 (clickCenter r).2,
                  Event.sleepMs wd] ++ tail, Outcome.ok true) := by
              simp [attemptBody, hm]
            rw [heq]
            have hfull : countReco ([Event.recognize stepNo attempt,
                Event.click (clickCenter r).1 (clickCenter r).2,
                Event.sleepMs wd] ++ tail) = 1 := by
              rw [countReco_append, htail]
              simp [countReco]
            simpa using hfull.le
          · have heq : attemptBody stepNo attempt (AttemptEv.reco r true) wd tail =
                ([Event.recognize stepNo attempt,
                  Event.click (clickCenter r).1 (clickCenter r).2], Outcome.raised) := by
              simp [attemptBody, hm]
            rw [heq]
            simp [countReco]
    rcases h : attemptBody stepNo attempt (ev attempt) wd tail with ⟨tr, o⟩
    rw [h] at hbody
    dsimp only at hbody
    rcases o with b | _
    · rcases b with _ | _
      · rcases eq_or_ne n 0 with hn | hn
        · simpa [retryLoop, h, hn] using hbody
        · simp only [retryLoop, h, if_neg hn]
          rw [countReco_append, countReco_sleep_cons]
          have := ih (attempt + 1)
          omega
      · simpa [retryLoop, h] using le_trans hbody (Nat.succ_le_succ (Nat.zero_le n))
    · rcases eq_or_ne n 0 with hn | hn
      · simpa [retryLoop, h, hn] using hbody
      · simp only [retryLoop, h, if_neg hn]
        rw [countReco_append, countReco_sleep_cons]
        have := ih (attempt + 1)
        omega

/-- When every attempt of the loop returns a missed recognition, the loop
performs exactly its `n` attempts, one recognition each with a
`retry_interval` sleep between consecutive attempts, and returns `False`. -/
theorem retryLoop_allMiss (stepNo : Nat) (ev : Nat → AttemptEv) (wd ri : Int)
    (tail : List Event) (hall : ∀ i, attemptMissed (ev i) = true) (attempt n : Nat) :
    retryLoop stepNo ev wd ri tail attempt n =
      (missTrace stepNo ri attempt n, Outcome.ok false) := by
  induction n generalizing attempt with
  | zero => simp [retryLoop, missTrace]
  | succ n ih =>
    have hatt := hall attempt
    rcases hev : ev attempt with _ | ⟨r, pe⟩
    · rw [hev] at hatt
      simp [attemptMissed] at hatt
    · rw [hev] at hatt
      have hm : recoMiss r = true := hatt
      have hbody : attemptBody stepNo attempt (ev attempt) wd tail =
          ([Event.recognize stepNo attempt], Outcome.ok false) := by
        rw [hev]
        simp [attemptBody, hm]
      rcases eq_or_ne n 0 with hn | hn
      · subst hn
        simp [retryLoop, hbody, missTrace]
      · simp [retryLoop, hbody, if_neg hn, ih (attempt + 1), missTrace, hn]

theorem clicksOf_sleep_cons (m : Int) (l : List Event) :
    clicksOf (Event.sleepMs m :: l) = clicksOf l := by
  simp [clicksOf]

theorem clicksOf_recognize_cons (s a : Nat) (l : List Event) :
    clicksOf (Event.recognize s a :: l) = clicksOf l := by
  simp [clicksOf]

/-- When no attempt of the loop recognizes the target (a miss or a caught
exception every time), the loop returns `False` and posts no click. -/
theorem retryLoop_allFail (stepNo : Nat) (ev : Nat → AttemptEv) (wd ri : Int)
    (tail : List Event) (hall : ∀ i, attemptFails (ev i) = true) (attempt n : Nat) :
    (retryLoop stepNo ev wd ri tail attempt n).2 = Outcome.ok false ∧
      clicksOf (retryLoop stepNo ev wd ri tail attempt n).1 = [] := by
  induction n generalizing attempt with
  | zero => simp [retryLoop, clicksOf]
  | succ n ih =>
    have hatt := hall attempt
    have hbody : attemptBody stepNo attempt (ev attempt) wd tail =
          ([], Outcome.raised) ∨
        attemptBody stepNo attempt (ev attempt) wd tail =
          ([Event.recognize stepNo attempt], Outcome.ok false) := by
      rcases hev : ev attempt with _ | ⟨r, pe⟩
      · exact Or.inl (by simp [attemptBody])
      · rw [hev] at hatt
        have hm : recoMiss r = true := hatt
        exact Or.inr (by simp [attemptBody, hm])
    rcases eq_or_ne n 0 with hn | hn
    · subst hn
      rcases hbody with hb | hb <;> simp [retryLoop, hb, clicksOf]
    · rcases hbody with hb | hb
      · have hres : retryLoop stepNo ev wd ri tail attempt (n + 1) =
            (Event.sleepMs ri :: (retryLoop stepNo ev wd ri tail (attempt + 1) n).1,
              (retryLoop stepNo ev wd ri tail (attempt + 1) n).2) := by
          simp [retryLoop, hb, if_neg hn]
        rw [hres]
        exact ⟨(ih (attempt + 1)).1, by
          rw [clicksOf_sleep_cons]
          exact (ih (attempt + 1)).2⟩
      · have hres : retryLoop stepNo ev wd ri tail attempt (n + 1) =
            (Event.recognize stepNo attempt :: Event.sleepMs ri ::
                (retryLoop stepNo ev wd ri tail (attempt + 1) n).1,
              (retryLoop stepNo ev wd ri tail (attempt + 1) n).2) := by
          simp [retryLoop, hb, if_neg hn]
        rw [hres]
        exact ⟨(ih (attempt + 1)).1, by
          rw [clicksOf_recognize_cons, clicksOf_sleep_cons]
          exact (ih (attempt + 1)).2⟩

/-- Every click the loop posts is the integer center of a recognized box of
nonzero width returned by some attempt of this loop (the success tail posts
no click). -/
theorem retryLoop_click_center (stepNo : Nat) (ev : Nat → AttemptEv) (wd ri : Int)
    (tail : List Event) (htail : ∀ a b : Int, Event.click a b ∉ tail)
    (attempt n : Nat) (x y : Int)
    (hx : Event.click x y ∈ (retryLoop stepNo ev wd ri tail attempt n).1) :
    ∃ (i : Nat) (r : Option RecoResult) (pe : Bool) (b : Box),
      ev i = AttemptEv.reco r pe ∧ r = some ⟨some b⟩ ∧ b.w ≠ 0 ∧
      x = b.x + Int.fdiv b.w 2 ∧ y = b.y + Int.fdiv b.h 2 := by
  induction n generalizing attempt with
  | zero => simp [retryLoop] at hx
  | succ n ih =>
    rcases hev : ev attempt with _ | ⟨r, pe⟩
    · have hbody : attemptBody stepNo attempt (ev attempt) wd tail =
          ([], Outcome.raised) := by
        rw [hev]; simp [attemptBody]
      rcases eq_or_ne n 0 with hn | hn
      · rw [hn] at hx
        simp [retryLoop, hbody] at hx
      · have hres : retryLoop stepNo ev wd ri tail attempt (n + 1) =
            (Event.sleepMs ri :: (retryLoop stepNo ev wd ri tail (attempt + 1) n).1,
              (retryLoop stepNo ev wd ri tail (attempt + 1) n).2) := by
          simp [retryLoop, hbody, if_neg hn]
        rw [hres] at hx
        rcases List.mem_cons.mp hx with hc | hc
        · cases hc
        · exact ih (attempt + 1) hc
    · by_cases hm : recoMiss r
      · have hbody : attemptBody stepNo attempt (ev attempt) wd tail =
            ([Event.recognize stepNo attempt], Outcome.ok false) := by
          rw [hev]; simp [attemptBody, hm]
        rcases eq_or_ne n 0 with hn | hn
        · rw [hn] at hx
          simp [retryLoop, hbody] at hx
        · have hres : retryLoop stepNo ev wd ri tail attempt (n + 1) =
              (Event.recognize stepNo attempt :: Event.sleepMs ri ::
                  (retryLoop stepNo ev wd ri tail (attempt + 1) n).1,
                (retryLoop stepNo ev wd ri tail (attempt + 1) n).2) := by
            simp [retryLoop, hbody, if_neg hn]
          rw [hres] at hx
          rcases List.mem_cons.mp hx with hc | hc
          · cases hc
          · rcases List.mem_cons.mp hc with hc2 | hc2
            · cases hc2
            · exact ih (attempt + 1) hc2
      · obtain ⟨b, hb, hw, hc⟩ := recoMiss_false_elim r (by simpa using hm)
        rcases pe with _ | _
        · have hbody : attemptBody stepNo attempt (ev attempt) wd tail =
              ([Event.recognize stepNo attempt,
                Event.click (b.x + Int.fdiv b.w 2) (b.y + Int.fdiv b.h 2),
                Event.sleepMs wd] ++ tail, Outcome.ok true) := by
            rw [hev]
            simp [attemptBody, hm, hc]
          have hres : retryLoop stepNo ev wd ri tail attempt (n + 1) =
              ([Event.recognize stepNo attempt,
                Event.click (b.x + Int.fdiv b.w 2) (b.y + Int.fdiv b.h 2),
                Event.sleepMs wd] ++ tail, Outcome.ok true) := by
            simp [retryLoop, hbody]
          rw [hres] at hx
          rcases List.mem_append.mp hx with hc1 | hc1
          · simp only [List.mem_cons, List.not_mem_nil, or_false] at hc1
            rcases hc1 with hc1 | hc1 | hc1
            · simp at hc1
            · rw [Event.click.injEq] at hc1
              exact ⟨attempt, r, false, b, hev, hb, hw, hc1.1, hc1.2⟩
            · simp at hc1
          · exact absurd hc1 (htail x y)
        · have hbody : attemptBody stepNo attempt (ev attempt) wd tail =
              ([Event.recognize stepNo attempt,
                Event.click (b.x + Int.fdiv b.w 2) (b.y + Int.fdiv b.h 2)],
                Outcome.raised) := by
            rw [hev]
            simp [attemptBody, hm, hc]
          rcases eq_or_ne n 0 with hn | hn
          · rw [hn] at hx
            have hres : retryLoop stepNo ev wd ri tail attempt 1 =
                ([Event.recognize stepNo attempt,
                  Event.click (b.x + Int.fdiv b.w 2) (b.y + Int.fdiv b.h 2)],
                  Outcome.ok false) := by
              simp [retryLoop, hbody]
            rw [hres] at hx
            simp only [List.mem_cons, List.not_mem_nil, or_false] at hx
            rcases hx with hc1 | hc1
            · simp at hc1
            · rw [Event.click.injEq] at hc1
              exact ⟨attempt, r, true, b, hev, hb, hw, hc1.1, hc1.2⟩
          · have hres : retryLoop stepNo ev wd ri tail attempt (n + 1) =
                (Event.recognize stepNo attempt ::
                  Event.click (b.x + Int.fdiv b.w 2) (b.y + Int.fdiv b.h 2) ::
                  Event.sleepMs ri ::
                    (retryLoop stepNo ev wd ri tail (attempt + 1) n).1,
                  (retryLoop stepNo ev wd ri tail (attempt + 1) n).2) := by
              simp [retryLoop, hbody, if_neg hn]
            rw [hres] at hx
            rcases List.mem_cons.mp hx with hc1 | hc1
            · simp at hc1
            · rcases List.mem_cons.mp hc1 with hc2 | hc2
              · rw [Event.click.injEq] at hc2
                exact ⟨attempt, r, true, b, hev, hb, hw, hc2.1, hc2.2⟩
              · rcases List.mem_cons.mp hc2 with hc3 | hc3
                · cases hc3
                · exact ih (attempt + 1) hc3

/-- Step 1 returns a boolean: its `try/except` absorbs the only raise. -/
theorem step1_ok (e : Env) (wd : Int) :
    ∃ b : Bool, (step1_press_esc e wd).2 = Outcome.ok b := by
  by_cases h : e.step1Exn
  · exact ⟨false, by simp [step1_press_esc, step1Body, h]⟩
  · exact ⟨true, by simp [step1_press_esc, step1Body, h]⟩

/-- Chaining preserves "returns a boolean". -/
theorem andThen_ok (r : List Event × Outcome) (k : Unit → List Event × Outcome)
    (hr : ∃ b : Bool, r.2 = Outcome.ok b) (hk : ∃ b : Bool, (k ()).2 = Outcome.ok b) :
    ∃ b : Bool, (andThen r k).2 = Outcome.ok b := by
  rcases r with ⟨tr, o⟩
  rcases hr with ⟨b, hb⟩
  simp only at hb
  subst hb
  rcases b with _ | _
  · exact ⟨false, rfl⟩
  · rcases hk with ⟨b2, hb2⟩
    exact ⟨b2, by simpa [andThen] using hb2⟩

/-- The five-step chain returns a boolean for every environment. -/
theorem stepChain_ok (e : Env) (P : Params) :
    ∃ b : Bool, (stepChain e P).2 = Outcome.ok b := by
  refine andThen_ok _ _ (step1_ok e P.wait_delay) ?_
  refine andThen_ok _ _ ⟨_, (retryLoop_ok _ _ _ _ _ _ _).choose_spec⟩ ?_
  refine andThen_ok _ _ ⟨_, (retryLoop_ok _ _ _ _ _ _ _).choose_spec⟩ ?_
  refine andThen_ok _ _ ⟨_, (retryLoop_ok _ _ _ _ _ _ _).choose_spec⟩ ?_
  exact ⟨_, (retryLoop_ok _ _ _ _ _ _ _).choose_spec⟩

/-- After a successful parameter parse, `run` behaves as the five-step
chain on the resolved parameters (the chain raises nothing the top-level
handler would have to absorb). -/
theorem run_eq_of_parse (e : Env) (p : ActionParam) (bag : ParamBag)
    (hp : parseParams p = some bag) :
    run e p = stepChain e (resolveParams bag) := by
  rcases stepChain_ok e (resolveParams bag) with ⟨b, hb⟩
  rcases h : stepChain e (resolveParams bag) with ⟨tr, o⟩
  rw [h] at hb
  simp only at hb
  subst hb
  simp [run, runBody, hp, h]

end ResetCharacterPosition

/-- Step 1 of an invocation with resolved parameters `P`. -/
def s1 (e : Env) (P : Params) : List Event × Outcome :=
  ResetCharacterPosition.step1_press_esc e P.wait_delay

/-- Step 2 of an invocation with resolved parameters `P`. -/
def s2 (e : Env) (P : Params) : List Event × Outcome :=
  ResetCharacterPosition.step2_click_settings e P.wait_delay P.retry_times
    P.retry_interval

/-- Step 3 of an invocation with resolved parameters `P`. -/
def s3 (e : Env) (P : Params) : List Event × Outcome :=
  ResetCharacterPosition.step3_click_other e P.template_path P.wait_delay
    P.retry_times P.retry_interval

/-- Step 4 of an invocation with resolved parameters `P`. -/
def s4 (e : Env) (P : Params) : List Event × Outcome :=
  ResetCharacterPosition.step4_click_reset_character e P.wait_delay P.retry_times
    P.retry_interval

/-- Step 5 of an invocation with resolved parameters `P`. -/
def s5 (e : Env) (P : Params) : List Event × Outcome :=
  ResetCharacterPosition.step5_click_confirm e P.wait_delay P.retry_times
    P.retry_interval

theorem andThen_okFalse (r : List Event × Outcome) (k : Unit → List Event × Outcome)
    (h : r.2 = Outcome.ok false) :
    ResetCharacterPosition.andThen r k = (r.1, Outcome.ok false) := by
  rcases r with ⟨tr, o⟩
  simp only at h
  subst h
  rfl

theorem andThen_okTrue (r : List Event × Outcome) (k : Unit → List Event × Outcome)
    (h : r.2 = Outcome.ok true) :
    ResetCharacterPosition.andThen r k = (r.1 ++ (k ()).1, (k ()).2) := by
  rcases r with ⟨tr, o⟩
  simp only at h
  subst h
  rfl

/-- C1: for every invocation whose parameter object parses, `run` executes
the five steps in the fixed order 1 (press ESC), 2 (click settings),
3 (click other), 4 (click reset character), 5 (click confirm); it returns
`True` iff all five steps return `True`, and when a step returns `False`
it returns `False` with the trace ending at that step, so none of the
later steps is attempted. -/
theorem run_chains_five_steps_in_order (e : Env) (p : ActionParam) (bag : ParamBag)
    (hp : parseParams p = some bag) :
    ((ResetCharacterPosition.run e p).2 = Outcome.ok true ↔
      ((s1 e (resolveParams bag)).2 = Outcome.ok true ∧
       (s2 e (resolveParams bag)).2 = Outcome.ok true ∧
       (s3 e (resolveParams bag)).2 = Outcome.ok true ∧
       (s4 e (resolveParams bag)).2 = Outcome.ok true ∧
       (s5 e (resolveParams bag)).2 = Outcome.ok true)) ∧
    ((s1 e (resolveParams bag)).2 = Outcome.ok false →
      ResetCharacterPosition.run e p =
        ((s1 e (resolveParams bag)).1, Outcome.ok false)) ∧
    ((s1 e (resolveParams bag)).2 = Outcome.ok true →
     (s2 e (resolveParams bag)).2 = Outcome.ok false →
      ResetCharacterPosition.run e p =
        ((s1 e (resolveParams bag)).1 ++ (s2 e (resolveParams bag)).1,
          Outcome.ok false)) ∧
    ((s1 e (resolveParams bag)).2 = Outcome.ok true →
     (s2 e (resolveParams bag)).2 = Outcome.ok true →
     (s3 e (resolveParams bag)).2 = Outcome.ok false →
      ResetCharacterPosition.run e p =
        ((s1 e (resolveParams bag)).1 ++ ((s2 e (resolveParams bag)).1 ++
          (s3 e (resolveParams bag)).1), Outcome.ok false)) ∧
    ((s1 e (resolveParams bag)).2 = Outcome.ok true →
     (s2 e (resolveParams bag)).2 = Outcome.ok true →
     (s3 e (resolveParams bag)).2 = Outcome.ok true →
     (s4 e (resolveParams bag)).2 = Outcome.ok false →
      ResetCharacterPosition.run e p =
        ((s1 e (resolveParams bag)).1 ++ ((s2 e (resolveParams bag)).1 ++
          ((s3 e (resolveParams bag)).1 ++ (s4 e (resolveParams bag)).1)),
          Outcome.ok false)) ∧
    ((s1 e (resolveParams bag)).2 = Outcome.ok true →
     (s2 e (resolveParams bag)).2 = Outcome.ok true →
     (s3 e (resolveParams bag)).2 = Outcome.ok true →
     (s4 e (resolveParams bag)).2 = Outcome.ok true →
     (s5 e (resolveParams bag)).2 = Outcome.ok false →
      ResetCharacterPosition.run e p =
        ((s1 e (resolveParams bag)).1 ++ ((s2 e (resolveParams bag)).1 ++
          ((s3 e (resolveParams bag)).1 ++ ((s4 e (resolveParams bag)).1 ++
            (s5 e (resolveParams bag)).1))), Outcome.ok false)) ∧
    ((s1 e (resolveParams bag)).2 = Outcome.ok true →
     (s2 e (resolveParams bag)).2 = Outcome.ok true →
     (s3 e (resolveParams bag)).2 = Outcome.ok true →
     (s4 e (resolveParams bag)).2 = Outcome.ok true →
     (s5 e (resolveParams bag)).2 = Outcome.ok true →
      ResetCharacterPosition.run e p =
        ((s1 e (resolveParams bag)).1 ++ ((s2 e (resolveParams bag)).1 ++
          ((s3 e (resolveParams bag)).1 ++ ((s4 e (resolveParams bag)).1 ++
            (s5 e (resolveParams bag)).1))), Outcome.ok true)) := by
  have hrun := ResetCharacterPosition.run_eq_of_parse e p bag hp
  set P := resolveParams bag with hP
  obtain ⟨b1, hb1⟩ := ResetCharacterPosition.step1_ok e P.wait_delay
  obtain ⟨b2, hb2⟩ := ResetCharacterPosition.retryLoop_ok 2 (e.attempts 2)
    P.wait_delay P.retry_interval [] 1 P.retry_times.toNat
  obtain ⟨b3, hb3⟩ := ResetCharacterPosition.retryLoop_ok 3 (e.attempts 3)
    P.wait_delay P.retry_interval [] 1 P.retry_times.toNat
  obtain ⟨b4, hb4⟩ := ResetCharacterPosition.retryLoop_ok 4 (e.attempts 4)
    P.wait_delay P.retry_interval [] 1 P.retry_times.toNat
  obtain ⟨b5, hb5⟩ := ResetCharacterPosition.retryLoop_ok 5 (e.attempts 5)
    P.wait_delay P.retry_interval [Event.sleepMs 100] 1 P.retry_times.toNat
  have hs1 : (s1 e P).2 = Outcome.ok b1 := hb1
  have hs2 : (s2 e P).2 = Outcome.ok b2 := hb2
  have hs3 : (s3 e P).2 = Outcome.ok b3 := hb3
  have hs4 : (s4 e P).2 = Outcome.ok b4 := hb4
  have hs5 : (s5 e P).2 = Outcome.ok b5 := hb5
  have hchain : ResetCharacterPosition.stepChain e P =
      ResetCharacterPosition.andThen (s1 e P) fun _ =>
      ResetCharacterPosition.andThen (s2 e P) fun _ =>
      ResetCharacterPosition.andThen (s3 e P) fun _ =>
      ResetCharacterPosition.andThen (s4 e P) fun _ => s5 e P := rfl
  rw [hchain] at hrun
  cases b1 with
  | false =>
    rw [andThen_okFalse _ _ hs1] at hrun
    simp [hrun, hs1, hs2, hs3, hs4, hs5]
  | true =>
    rw [andThen_okTrue _ _ hs1] at hrun
    try dsimp only at hrun
    cases b2 with
    | false =>
      rw [andThen_okFalse _ _ hs2] at hrun
      simp [hrun, hs1, hs2, hs3, hs4, hs5]
    | true =>
      rw [andThen_okTrue _ _ hs2] at hrun
      try dsimp only at hrun
      cases b3 with
      | false =>
        rw [andThen_okFalse _ _ hs3] at hrun
        simp [hrun, hs1, hs2, hs3, hs4, hs5]
      | true =>
        rw [andThen_okTrue _ _ hs3] at hrun
        try dsimp only at hrun
        cases b4 with
        | false =>
          rw [andThen_okFalse _ _ hs4] at hrun
          simp [hrun, hs1, hs2, hs3, hs4, hs5]
        | true =>
          rw [andThen_okTrue _ _ hs4] at hrun
          try dsimp only at hrun
          cases b5 with
          | false =>
            simp [hrun, hs1, hs2, hs3, hs4, hs5]
          | true =>
            simp [hrun, hs1, hs2, hs3, hs4, hs5]

/-- An environment where nothing raises and every recognition attempt of
every step hits the box (10, 20, 30, 40). -/
def envAllOk : Env :=
  ⟨false, fun _ _ => AttemptEv.reco (some ⟨some ⟨10, 20, 30, 40⟩⟩) false⟩

/-- An environment where nothing raises and every recognition attempt of
every step returns no result. -/
def envAllMiss : Env :=
  ⟨false, fun _ _ => AttemptEv.reco none false⟩

theorem run_chains_five_steps_in_order_witness :
    (ResetCharacterPosition.run envAllOk ActionParam.other).2 = Outcome.ok true :=
  (run_chains_five_steps_in_order envAllOk ActionParam.other ⟨none, none, none, none⟩
      rfl).1.mpr
    ⟨by decide, by decide, by decide, by decide, by decide⟩

/-- C10: a parameter object that is neither a string nor a dict parses to
the empty bag, so the action proceeds with all four defaults. -/
theorem non_string_non_dict_param_uses_defaults :
    parseParams ActionParam.other = some ⟨none, none, none, none⟩ ∧
    resolveParams ⟨none, none, none, none⟩ = ⟨"common/其他.png", 500, 10, 500⟩ ∧
    ∀ e : Env, ResetCharacterPosition.run e ActionParam.other =
      ResetCharacterPosition.stepChain e ⟨"common/其他.png", 500, 10, 500⟩ := by
  refine ⟨rfl, rfl, fun e => ?_⟩
  exact ResetCharacterPosition.run_eq_of_parse e ActionParam.other
    ⟨none, none, none, none⟩ rfl

/-- C3: the parameter object may be a JSON string or a mapping; each of the
four keys is optional, an absent key falls back to its default
(`"common/其他.png"`, 500 ms, 10 retries, 500 ms) and a present key is
used as given. -/
theorem param_keys_all_optional_with_defaults (bag : ParamBag) :
    parseParams (ActionParam.jsonStr (some bag)) = some bag ∧
    parseParams (ActionParam.mapping bag) = some bag ∧
    (bag.template_path = none →
      (resolveParams bag).template_path = "common/其他.png") ∧
    (bag.wait_delay = none → (resolveParams bag).wait_delay = 500) ∧
    (bag.retry_times = none → (resolveParams bag).retry_times = 10) ∧
    (bag.retry_interval = none → (resolveParams bag).retry_interval = 500) ∧
    (∀ v : String, bag.template_path = some v →
      (resolveParams bag).template_path = v) ∧
    (∀ v : Int, bag.wait_delay = some v → (resolveParams bag).wait_delay = v) ∧
    (∀ v : Int, bag.retry_times = some v → (resolveParams bag).retry_times = v) ∧
    (∀ v : Int, bag.retry_interval = some v →
      (resolveParams bag).retry_interval = v) := by
  refine ⟨rfl, rfl, ?_, ?_, ?_, ?_, ?_, ?_, ?_, ?_⟩ <;>
    first
      | (intro h; simp [resolveParams, h])
      | (intro v h; simp [resolveParams, h])

/-- C8: with a zero or negative retry count, each retrying step returns
`False` with an empty trace (no recognition, no click, no sleep), so the
whole run returns `False` right after step 1 pressed ESC and slept. -/
theorem nonpositive_retry_count_fails_after_esc (e : Env) (p : ActionParam)
    (bag : ParamBag) (hp : parseParams p = some bag)
    (hrt : (resolveParams bag).retry_times ≤ 0) (h1 : e.step1Exn = false) :
    s2 e (resolveParams bag) = ([], Outcome.ok false) ∧
    s3 e (resolveParams bag) = ([], Outcome.ok false) ∧
    s4 e (resolveParams bag) = ([], Outcome.ok false) ∧
    s5 e (resolveParams bag) = ([], Outcome.ok false) ∧
    ResetCharacterPosition.run e p =
      ([Event.pressEsc, Event.sleepMs (resolveParams bag).wait_delay],
        Outcome.ok false) := by
  set P := resolveParams bag with hP
  have htn : P.retry_times.toNat = 0 := Int.toNat_of_nonpos hrt
  have h2 : s2 e P = ([], Outcome.ok false) := by
    show ResetCharacterPosition.retryLoop 2 (e.attempts 2) P.wait_delay
      P.retry_interval [] 1 P.retry_times.toNat = ([], Outcome.ok false)
    rw [htn]
    rfl
  have h3 : s3 e P = ([], Outcome.ok false) := by
    show ResetCharacterPosition.retryLoop 3 (e.attempts 3) P.wait_delay
      P.retry_interval [] 1 P.retry_times.toNat = ([], Outcome.ok false)
    rw [htn]
    rfl
  have h4 : s4 e P = ([], Outcome.ok false) := by
    show ResetCharacterPosition.retryLoop 4 (e.attempts 4) P.wait_delay
      P.retry_interval [] 1 P.retry_times.toNat = ([], Outcome.ok false)
    rw [htn]
    rfl
  have h5 : s5 e P = ([], Outcome.ok false) := by
    show ResetCharacterPosition.retryLoop 5 (e.attempts 5) P.wait_delay
      P.retry_interval [Event.sleepMs 100] 1 P.retry_times.toNat =
        ([], Outcome.ok false)
    rw [htn]
    rfl
  have hs1 : s1 e P = ([Event.pressEsc, Event.sleepMs P.wait_delay],
      Outcome.ok true) := by
    simp [s1, ResetCharacterPosition.step1_press_esc,
      ResetCharacterPosition.step1Body, h1]
  have hrun := ResetCharacterPosition.run_eq_of_parse e p bag hp
  have hchain : ResetCharacterPosition.stepChain e P =
      ResetCharacterPosition.andThen (s1 e P) fun _ =>
      ResetCharacterPosition.andThen (s2 e P) fun _ =>
      ResetCharacterPosition.andThen (s3 e P) fun _ =>
      ResetCharacterPosition.andThen (s4 e P) fun _ => s5 e P := rfl
  rw [hchain] at hrun
  rw [andThen_okTrue _ _ (by rw [hs1])] at hrun
  try dsimp only at hrun
  rw [andThen_okFalse _ _ (by rw [h2])] at hrun
  refine ⟨h2, h3, h4, h5, ?_⟩
  rw [hrun, hs1, h2]
  rfl

theorem nonpositive_retry_count_fails_after_esc_witness :
    ResetCharacterPosition.run envAllOk
        (ActionParam.mapping ⟨none, none, some 0, none⟩) =
      ([Event.pressEsc, Event.sleepMs 500], Outcome.ok false) :=
  (nonpositive_retry_count_fails_after_esc envAllOk
    (ActionParam.mapping ⟨none, none, some 0, none⟩)
    ⟨none, none, some 0, none⟩ rfl (by decide) rfl).2.2.2.2

theorem countReco_recognize_cons (s a : Nat) (l : List Event) :
    countReco (Event.recognize s a :: l) = countReco l + 1 := by
  simp [countReco]

/-- The all-miss trace of a loop of `n` attempts holds exactly `n`
recognition attempts. -/
theorem countReco_missTrace (stepNo : Nat) (ri : Int) (attempt n : Nat) :
    countReco (missTrace stepNo ri attempt n) = n := by
  induction n generalizing attempt with
  | zero => simp [missTrace, countReco]
  | succ n ih =>
    rcases eq_or_ne n 0 with hn | hn
    · subst hn
      simp [missTrace, countReco]
    · rw [missTrace, if_neg hn, countReco_recognize_cons,
        ResetCharacterPosition.countReco_sleep_cons, ih (attempt + 1)]

/-- C2 as stated is false for step 1: the step that presses ESC returns
`True` without polling any recognition and without any retry, and a whole
successful run performs recognition in only the four later steps. -/
theorem step1_polls_no_recognition_cex :
    ResetCharacterPosition.step1_press_esc envAllOk 500 =
      ([Event.pressEsc, Event.sleepMs 500], Outcome.ok true) ∧
    countReco (ResetCharacterPosition.step1_press_esc envAllOk 500).1 = 0 ∧
    (ResetCharacterPosition.run envAllOk ActionParam.other).2 = Outcome.ok true ∧
    countReco (ResetCharacterPosition.run envAllOk ActionParam.other).1 = 4 := by
  refine ⟨?_, ?_, ?_, ?_⟩ <;> decide

/-- C2 amended: each of steps 2 through 5 polls its recognition with
fixed-interval retry: when every attempt misses, the step performs exactly
`retry_times.toNat` recognition attempts with a `retry_interval` sleep
between consecutive ones and returns `False` (step 1 presses ESC once and
performs no recognition). -/
theorem steps_two_to_five_poll_with_retry (e : Env) (P : Params)
    (hall : ∀ k i, attemptMissed (e.attempts k i) = true) :
    s2 e P = (missTrace 2 P.retry_interval 1 P.retry_times.toNat,
      Outcome.ok false) ∧
    s3 e P = (missTrace 3 P.retry_interval 1 P.retry_times.toNat,
      Outcome.ok false) ∧
    s4 e P = (missTrace 4 P.retry_interval 1 P.retry_times.toNat,
      Outcome.ok false) ∧
    s5 e P = (missTrace 5 P.retry_interval 1 P.retry_times.toNat,
      Outcome.ok false) ∧
    countReco (missTrace 2 P.retry_interval 1 P.retry_times.toNat) =
      P.retry_times.toNat := by
  refine ⟨?_, ?_, ?_, ?_, countReco_missTrace 2 P.retry_interval 1 _⟩
  · exact ResetCharacterPosition.retryLoop_allMiss 2 (e.attempts 2) P.wait_delay
      P.retry_interval [] (hall 2) 1 P.retry_times.toNat
  · exact ResetCharacterPosition.retryLoop_allMiss 3 (e.attempts 3) P.wait_delay
      P.retry_interval [] (hall 3) 1 P.retry_times.toNat
  · exact ResetCharacterPosition.retryLoop_allMiss 4 (e.attempts 4) P.wait_delay
      P.retry_interval [] (hall 4) 1 P.retry_times.toNat
  · exact ResetCharacterPosition.retryLoop_allMiss 5 (e.attempts 5) P.wait_delay
      P.retry_interval [Event.sleepMs 100] (hall 5) 1 P.retry_times.toNat

theorem steps_two_to_five_poll_with_retry_witness :
    s2 envAllMiss ⟨"common/其他.png", 500, 3, 250⟩ =
      (missTrace 2 250 1 (3 : Int).toNat, Outcome.ok false) :=
  (steps_two_to_five_poll_with_retry envAllMiss ⟨"common/其他.png", 500, 3, 250⟩
    (fun _ _ => rfl)).1

/-- C5: in steps 2 through 5, every posted click is the integer floor
center `(x + w / 2, y + h / 2)` of a recognized box of nonzero width that
some attempt of that step returned. -/
theorem clicks_always_at_recognized_box_center (e : Env) (P : Params) (x y : Int) :
    (Event.click x y ∈ (s2 e P).1 →
      ∃ (i : Nat) (r : Option RecoResult) (pe : Bool) (b : Box),
        e.attempts 2 i = AttemptEv.reco r pe ∧ r = some ⟨some b⟩ ∧ b.w ≠ 0 ∧
        x = b.x + Int.fdiv b.w 2 ∧ y = b.y + Int.fdiv b.h 2) ∧
    (Event.click x y ∈ (s3 e P).1 →
      ∃ (i : Nat) (r : Option RecoResult) (pe : Bool) (b : Box),
        e.attempts 3 i = AttemptEv.reco r pe ∧ r = some ⟨some b⟩ ∧ b.w ≠ 0 ∧
        x = b.x + Int.fdiv b.w 2 ∧ y = b.y + Int.fdiv b.h 2) ∧
    (Event.click x y ∈ (s4 e P).1 →
      ∃ (i : Nat) (r : Option RecoResult) (pe : Bool) (b : Box),
        e.attempts 4 i = AttemptEv.reco r pe ∧ r = some ⟨some b⟩ ∧ b.w ≠ 0 ∧
        x = b.x + Int.fdiv b.w 2 ∧ y = b.y + Int.fdiv b.h 2) ∧
    (Event.click x y ∈ (s5 e P).1 →
      ∃ (i : Nat) (r : Option RecoResult) (pe : Bool) (b : Box),
        e.attempts 5 i = AttemptEv.reco r pe ∧ r = some ⟨some b⟩ ∧ b.w ≠ 0 ∧
        x = b.x + Int.fdiv b.w 2 ∧ y = b.y + Int.fdiv b.h 2) := by
  refine ⟨fun hx => ?_, fun hx => ?_, fun hx => ?_, fun hx => ?_⟩
  · exact ResetCharacterPosition.retryLoop_click_center 2 (e.attempts 2)
      P.wait_delay P.retry_interval [] (by simp) 1 P.retry_times.toNat x y hx
  · exact ResetCharacterPosition.retryLoop_click_center 3 (e.attempts 3)
      P.wait_delay P.retry_interval [] (by simp) 1 P.retry_times.toNat x y hx
  · exact ResetCharacterPosition.retryLoop_click_center 4 (e.attempts 4)
      P.wait_delay P.retry_interval [] (by simp) 1 P.retry_times.toNat x y hx
  · exact ResetCharacterPosition.retryLoop_click_center 5 (e.attempts 5)
      P.wait_delay P.retry_interval [Event.sleepMs 100] (by simp) 1
      P.retry_times.toNat x y hx

/-- C6: the retry of each of steps 2 through 5 is bounded: at most
`retry_times` recognition attempts happen (none when the count is zero or
negative), and when no attempt recognizes the target the step returns
`False` once the count is exhausted. -/
theorem retry_bounded_and_exhaustion_fails (e : Env) (P : Params) :
    (countReco (s2 e P).1 ≤ P.retry_times.toNat ∧
     countReco (s3 e P).1 ≤ P.retry_times.toNat ∧
     countReco (s4 e P).1 ≤ P.retry_times.toNat ∧
     countReco (s5 e P).1 ≤ P.retry_times.toNat) ∧
    ((∀ k i, attemptFails (e.attempts k i) = true) →
      (s2 e P).2 = Outcome.ok false ∧ (s3 e P).2 = Outcome.ok false ∧
      (s4 e P).2 = Outcome.ok false ∧ (s5 e P).2 = Outcome.ok false) := by
  constructor
  · exact ⟨ResetCharacterPosition.countReco_retryLoop_le 2 (e.attempts 2)
        P.wait_delay P.retry_interval [] rfl 1 P.retry_times.toNat,
      ResetCharacterPosition.countReco_retryLoop_le 3 (e.attempts 3)
        P.wait_delay P.retry_interval [] rfl 1 P.retry_times.toNat,
      ResetCharacterPosition.countReco_retryLoop_le 4 (e.attempts 4)
        P.wait_delay P.retry_interval [] rfl 1 P.retry_times.toNat,
      ResetCharacterPosition.countReco_retryLoop_le 5 (e.attempts 5)
        P.wait_delay P.retry_interval [Event.sleepMs 100] rfl 1 P.retry_times.toNat⟩
  · intro hall
    exact ⟨(ResetCharacterPosition.retryLoop_allFail 2 (e.attempts 2) P.wait_delay
        P.retry_interval [] (hall 2) 1 P.retry_times.toNat).1,
      (ResetCharacterPosition.retryLoop_allFail 3 (e.attempts 3) P.wait_delay
        P.retry_interval [] (hall 3) 1 P.retry_times.toNat).1,
      (ResetCharacterPosition.retryLoop_allFail 4 (e.attempts 4) P.wait_delay
        P.retry_interval [] (hall 4) 1 P.retry_times.toNat).1,
      (ResetCharacterPosition.retryLoop_allFail 5 (e.attempts 5) P.wait_delay
        P.retry_interval [Event.sleepMs 100] (hall 5) 1 P.retry_times.toNat).1⟩

/-- An attempt whose recognition result fails the hit test in particular
fails to recognize the target. -/
theorem attemptFails_of_missed (ev : AttemptEv) (h : attemptMissed ev = true) :
    attemptFails ev = true := by
  cases ev
  · simp [attemptMissed] at h
  · simp only [attemptMissed] at h
    simp only [attemptFails]
    exact h

/-- C9: a missing result, a result without a box, and a zero-width box all
fail the hit test, and a run of a step whose attempts all fail the hit
test posts no click at all. -/
theorem degenerate_recognition_never_clicked (e : Env) (P : Params)
    (hall : ∀ k i, attemptMissed (e.attempts k i) = true) :
    recoMiss none = true ∧ recoMiss (some ⟨none⟩) = true ∧
    (∀ b : Box, b.w = 0 → recoMiss (some ⟨some b⟩) = true) ∧
    clicksOf (s2 e P).1 = [] ∧ clicksOf (s3 e P).1 = [] ∧
    clicksOf (s4 e P).1 = [] ∧ clicksOf (s5 e P).1 = [] := by
  refine ⟨rfl, rfl, fun b hb => by simp [recoMiss, hb], ?_, ?_, ?_, ?_⟩
  · exact (ResetCharacterPosition.retryLoop_allFail 2 (e.attempts 2) P.wait_delay
      P.retry_interval []
      (fun i => attemptFails_of_missed _ (hall 2 i)) 1 P.retry_times.toNat).2
  · exact (ResetCharacterPosition.retryLoop_allFail 3 (e.attempts 3) P.wait_delay
      P.retry_interval []
      (fun i => attemptFails_of_missed _ (hall 3 i)) 1 P.retry_times.toNat).2
  · exact (ResetCharacterPosition.retryLoop_allFail 4 (e.attempts 4) P.wait_delay
      P.retry_interval []
      (fun i => attemptFails_of_missed _ (hall 4 i)) 1 P.retry_times.toNat).2
  · exact (ResetCharacterPosition.retryLoop_allFail 5 (e.attempts 5) P.wait_delay
      P.retry_interval [Event.sleepMs 100]
      (fun i => attemptFails_of_missed _ (hall 5 i)) 1 P.retry_times.toNat).2

theorem degenerate_recognition_never_clicked_witness :
    clicksOf (s2 envAllMiss ⟨"common/其他.png", 500, 3, 250⟩).1 = [] :=
  (degenerate_recognition_never_clicked envAllMiss ⟨"common/其他.png", 500, 3, 250⟩
    (fun _ _ => rfl)).2.2.2.1

/-- Symmetry of a failed string comparison. -/
theorem string_beq_false_symm (a b : String) (h : (a == b) = false) :
    (b == a) = false := by
  rcases hbe : b == a with _ | _
  · rfl
  · rw [eq_of_beq hbe, beq_self_eq_true] at h
    cases h

/-- Looking up the assigned key after an in-place dict update finds the new
value. -/
theorem lookup_map_set (m : List (String × JsonVal)) (key : String) (v : JsonVal)
    (hmem : (m.any fun kv => kv.1 == key) = true) :
    List.lookup key (m.map fun kv => if kv.1 == key then (key, v) else kv) =
      some v := by
  induction m with
  | nil => simp at hmem
  | cons a m ih =>
    rcases a with ⟨a1, a2⟩
    by_cases h1 : a1 = key
    · subst h1
      simp only [List.map_cons, beq_self_eq_true]
      simp only [if_true]
      rw [List.lookup_cons]
      simp [beq_self_eq_true]
    · have hk1 : (a1 == key) = false := by
        rcases hbe : a1 == key with _ | _
        · rfl
        · exact absurd (eq_of_beq hbe) h1
      have hk2 : (key == a1) = false := string_beq_false_symm a1 key hk1
      simp only [List.any_cons, hk1, Bool.false_or] at hmem
      simp only [List.map_cons, hk1, Bool.false_eq_true, if_false]
      rw [List.lookup_cons]
      simp only [hk2]
      exact ih hmem

/-- Looking up the assigned key after appending it to a dict that lacked it
finds the new value. -/
theorem lookup_append_set (m : List (String × JsonVal)) (key : String) (v : JsonVal)
    (hmem : (m.any fun kv => kv.1 == key) = false) :
    List.lookup key (m ++ [(key, v)]) = some v := by
  induction m with
  | nil => simp [List.lookup]
  | cons a m ih =>
    rcases a with ⟨a1, a2⟩
    simp only [List.any_cons, Bool.or_eq_false_iff] at hmem
    have hk2 : (key == a1) = false := string_beq_false_symm a1 key hmem.1
    rw [List.cons_append, List.lookup_cons]
    simp only [hk2]
    exact ih hmem.2

/-- An in-place dict update of one key leaves every other key's lookup
unchanged. -/
theorem lookup_map_set_other (m : List (String × JsonVal)) (key k : String)
    (v : JsonVal) (hk : k ≠ key) :
    List.lookup k (m.map fun kv => if kv.1 == key then (key, v) else kv) =
      List.lookup k m := by
  have hkk : (k == key) = false := by
    rcases hbe : k == key with _ | _
    · rfl
    · exact absurd (eq_of_beq hbe) hk
  induction m with
  | nil => rfl
  | cons a m ih =>
    rcases a with ⟨a1, a2⟩
    by_cases h1 : a1 = key
    · subst h1
      simp only [List.map_cons, beq_self_eq_true, if_true]
      rw [List.lookup_cons, List.lookup_cons]
      simp only [hkk]
      exact ih
    · have hk1 : (a1 == key) = false := by
        rcases hbe : a1 == key with _ | _
        · rfl
        · exact absurd (eq_of_beq hbe) h1
      simp only [List.map_cons, hk1, Bool.false_eq_true, if_false]
      rw [List.lookup_cons, List.lookup_cons]
      rcases hka : k == a1 with _ | _
      · exact ih
      · rfl

/-- Appending a fresh key to a dict leaves every other key's lookup
unchanged. -/
theorem lookup_append_set_other (m : List (String × JsonVal)) (key k : String)
    (v : JsonVal) (hk : k ≠ key) :
    List.lookup k (m ++ [(key, v)]) = List.lookup k m := by
  have hkk : (k == key) = false := by
    rcases hbe : k == key with _ | _
    · rfl
    · exact absurd (eq_of_beq hbe) hk
  induction m with
  | nil => simp [List.lookup, hkk]
  | cons a m ih =>
    rcases a with ⟨a1, a2⟩
    rw [List.cons_append, List.lookup_cons, List.lookup_cons]
    rcases hka : k == a1 with _ | _
    · exact ih
    · rfl

/-- C7 as stated is false for an explicitly supplied empty version string:
`len(sys.argv) > 1 and sys.argv[1] or "v0.0.1"` evaluates to `"v0.0.1"`
when `sys.argv[1]` is `""` (a falsy string), so the manifest's version
field does not equal the supplied argument. -/
theorem installer_empty_version_argument_cex :
    install_resource_manifest [("version", JsonVal.str "v1.2.3")]
        ["install.py", ""] =
      [("version", JsonVal.str "v0.0.1")] ∧
    ("v0.0.1" : String) ≠ "" := by
  constructor
  · rfl
  · decide

/-- C7 amended: `install_resource` rewrites exactly the manifest's
`"version"` field; the new value is the supplied positional argument when
that argument is a non-empty string, and `"v0.0.1"` when no argument is
supplied or the supplied argument is the empty string; every other field
of the loaded manifest is written back unchanged. -/
theorem installer_rewrites_only_version_field (loaded : List (String × JsonVal))
    (argv : List String) :
    List.lookup "version" (install_resource_manifest loaded argv) =
      some (JsonVal.str (versionOf argv)) ∧
    (∀ k : String, k ≠ "version" →
      List.lookup k (install_resource_manifest loaded argv) =
        List.lookup k loaded) ∧
    versionOf [] = "v0.0.1" ∧
    (∀ prog : String, versionOf [prog] = "v0.0.1") ∧
    (∀ (prog : String) (rest : List String),
      versionOf (prog :: "" :: rest) = "v0.0.1") ∧
    (∀ (prog v : String) (rest : List String), v ≠ "" →
      versionOf (prog :: v :: rest) = v) := by
  refine ⟨?_, ?_, rfl, fun prog => rfl, fun prog rest => rfl,
    fun prog v rest hv => by simp [versionOf, hv]⟩
  · unfold install_resource_manifest dictSet
    by_cases hmem : (loaded.any fun kv => kv.1 == "version") = true
    · rw [if_pos hmem]
      exact lookup_map_set loaded "version" (JsonVal.str (versionOf argv)) hmem
    · rw [if_neg hmem]
      exact lookup_append_set loaded "version" (JsonVal.str (versionOf argv))
        (Bool.not_eq_true _ ▸ eq_false_of_ne_true hmem)
  · intro k hk
    unfold install_resource_manifest dictSet
    by_cases hmem : (loaded.any fun kv => kv.1 == "version") = true
    · rw [if_pos hmem]
      exact lookup_map_set_other loaded "version" k
        (JsonVal.str (versionOf argv)) hk
    · rw [if_neg hmem]
      exact lookup_append_set_other loaded "version" k
        (JsonVal.str (versionOf argv)) hk

/-- Step 1 of the sleep-faithful run with resolved parameters `P`. -/
def s1F (e : Env) (P : Params) : List Event × Outcome :=
  ResetCharacterPosition.step1_press_escF e P.wait_delay

/-- Step 2 of the sleep-faithful run with resolved parameters `P`. -/
def s2F (e : Env) (P : Params) : List Event × Outcome :=
  ResetCharacterPosition.step2_click_settingsF e P.wait_delay P.retry_times
    P.retry_interval

/-- Step 3 of the sleep-faithful run with resolved parameters `P`. -/
def s3F (e : Env) (P : Params) : List Event × Outcome :=
  ResetCharacterPosition.step3_click_otherF e P.template_path P.wait_delay
    P.retry_times P.retry_interval

/-- Step 4 of the sleep-faithful run with resolved parameters `P`. -/
def s4F (e : Env) (P : Params) : List Event × Outcome :=
  ResetCharacterPosition.step4_click_reset_characterF e P.wait_delay
    P.retry_times P.retry_interval

/-- Step 5 of the sleep-faithful run with resolved parameters `P`. -/
def s5F (e : Env) (P : Params) : List Event × Outcome :=
  ResetCharacterPosition.step5_click_confirmF e P.wait_delay P.retry_times
    P.retry_interval

/-- With a valid (non-negative) retry interval the handler's sleep cannot
raise, so the faithful retry loop returns a boolean for every environment,
every `wait_delay` and every attempt budget. -/
theorem retryLoopF_ok (stepNo : Nat) (ev : Nat → AttemptEv) (wd ri : Int)
    (tail : List Event) (hri : 0 ≤ ri) (attempt n : Nat) :
    ∃ b : Bool,
      (ResetCharacterPosition.retryLoopF stepNo ev wd ri tail attempt n).2 =
        Outcome.ok b := by
  induction n generalizing attempt with
  | zero => exact ⟨false, rfl⟩
  | succ n ih =>
    rcases h : ResetCharacterPosition.attemptTryF stepNo attempt (ev attempt)
        wd ri n tail with ⟨tr, st⟩
    rcases st with b | _ | _
    · exact ⟨b, by simp [ResetCharacterPosition.retryLoopF, h]⟩
    · rcases ih (attempt + 1) with ⟨b, hb⟩
      exact ⟨b, by simp [ResetCharacterPosition.retryLoopF, h, hb]⟩
    · rcases eq_or_ne n 0 with hn | hn
      · subst hn
        exact ⟨false, by simp [ResetCharacterPosition.retryLoopF, h]⟩
      · rcases ih (attempt + 1) with ⟨b, hb⟩
        exact ⟨b, by
          simp [ResetCharacterPosition.retryLoopF, h, hn, not_lt.mpr hri, hb]⟩

/-- The faithful step 1 returns a boolean in every case: its handler body
cannot raise. -/
theorem step1F_ok (e : Env) (wd : Int) :
    ∃ b : Bool, (ResetCharacterPosition.step1_press_escF e wd).2 =
      Outcome.ok b := by
  by_cases h1 : e.step1Exn
  · exact ⟨false, by simp [ResetCharacterPosition.step1_press_escF, h1]⟩
  · by_cases h2 : wd < 0
    · exact ⟨false, by simp [ResetCharacterPosition.step1_press_escF, h1, h2]⟩
    · exact ⟨true, by simp [ResetCharacterPosition.step1_press_escF, h1, h2]⟩

/-- C4 as stated is false on the code: at a negative retry interval a
failing non-final attempt reaches the except handler, whose unprotected
retry sleep raises `ValueError`, so the step method propagates an
exception instead of returning failure; `run`'s own top-level handler
still catches it and returns `False`. -/
theorem step_method_raises_on_negative_retry_interval_cex :
    (s2F envAllMiss ⟨"common/其他.png", 500, 10, -1⟩).2 = Outcome.raised ∧
    (ResetCharacterPosition.runF envAllMiss
        (ActionParam.mapping ⟨none, none, none, some (-1)⟩)).2 =
      Outcome.ok false :=
  ⟨by decide, by decide⟩

/-- C4 amended: every step catches the exceptions raised inside its
per-attempt try block, and with a valid (non-negative) retry interval no
step method raises: each ultimately returns a boolean for every
environment and every parameter value.  The except handler's own retry
sleep is unprotected, so a negative retry interval can make a step method
propagate the sleep's exception; `run` itself catches any exception that
reaches it and returns `False`, hence for every input `run` returns a
boolean and never propagates an exception to the caller. -/
theorem run_never_raises_and_steps_return_given_valid_sleep
    (e : Env) (p : ActionParam) (P : Params) :
    (0 ≤ P.retry_interval →
      (∃ b : Bool, (s1F e P).2 = Outcome.ok b) ∧
      (∃ b : Bool, (s2F e P).2 = Outcome.ok b) ∧
      (∃ b : Bool, (s3F e P).2 = Outcome.ok b) ∧
      (∃ b : Bool, (s4F e P).2 = Outcome.ok b) ∧
      (∃ b : Bool, (s5F e P).2 = Outcome.ok b)) ∧
    (∃ b : Bool, (ResetCharacterPosition.runF e p).2 = Outcome.ok b) := by
  constructor
  · intro hri
    exact ⟨step1F_ok e P.wait_delay,
      retryLoopF_ok 2 (e.attempts 2) P.wait_delay P.retry_interval [] hri 1
        P.retry_times.toNat,
      retryLoopF_ok 3 (e.attempts 3) P.wait_delay P.retry_interval [] hri 1
        P.retry_times.toNat,
      retryLoopF_ok 4 (e.attempts 4) P.wait_delay P.retry_interval [] hri 1
        P.retry_times.toNat,
      retryLoopF_ok 5 (e.attempts 5) P.wait_delay P.retry_interval
        [Event.sleepMs 100] hri 1 P.retry_times.toNat⟩
  · rcases h : ResetCharacterPosition.runBodyF e p with ⟨tr, o⟩
    rcases o with b | _
    · exact ⟨b, by simp [ResetCharacterPosition.runF, h]⟩
    · exact ⟨false, by simp [ResetCharacterPosition.runF, h]⟩
